import Mathlib

/-!
Shallow embedding of the zone/record resolution and mutation engine of
`src/lib/common.js` (the `callOn` table and its pure helpers), together
with theorems settling the frozen claims about it.

DNS names are modelled as `List Char` (JS strings); provider calls are
modelled by passing the provider's responses in as explicit arguments and
returning, alongside the result, the list of provider requests the code
would have issued, so that claims about "no network call" and about the
exact shape of requests are statable.
-/

namespace Route53

/-- A DNS name / JS string. -/
abbrev Str : Type := List Char

/-- JS `_.endsWith(s, suffix)`: `suffix` is a suffix of `s`. -/
def jsEndsWith (s suffix : Str) : Bool :=
  suffix.isSuffixOf s

/-- The name-canonicalisation step both branches of `recordNameMatch`
(`common.js` lines 22-23) perform: append the trailing `'.'` if absent. -/
def normalizeName (n : Str) : Str :=
  if jsEndsWith n ['.'] then n else n ++ ['.']

/-- `recordNameMatch` (`common.js` lines 21-25): normalize both names,
then compare for exact equality (JS `===`). -/
def recordNameMatch (n1 n2 : Str) : Bool :=
  normalizeName n1 == normalizeName n2

/-- `recordTypeMatch` (`common.js` lines 28-30): an undefined type matches
any type; two defined types must be strictly equal. -/
def recordTypeMatch : Option Str → Option Str → Bool
  | none, _ => true
  | _, none => true
  | some t1, some t2 => t1 == t2

/-- A record selector as passed to `resourceRecord` and `nextRecordMatch`:
`Name` is always a string, `Type` may be undefined (wildcard).
(`Type` is a Lean keyword, so the field is spelled `Typ`.) -/
structure RecordQuery where
  Name : Str
  Typ : Option Str
  deriving Repr, DecidableEq

/-- The next-record cursor `{Name: data.NextRecordName, Type: data.NextRecordType}`
as built at `common.js` lines 138-141; both fields may be undefined. -/
structure CursorRec where
  Name : Option Str
  Typ : Option Str
  deriving Repr, DecidableEq

/-- `nextRecordMatch` (`common.js` lines 32-36): false whenever the
candidate's Name or Type is undefined; otherwise name match then type
match against the query. -/
def nextRecordMatch (r1 : RecordQuery) (r2 : CursorRec) : Bool :=
  match r2.Name, r2.Typ with
  | some n2, some t2 =>
    if ! recordNameMatch r1.Name n2 then false
    else recordTypeMatch r1.Typ (some t2)
  | none, _ => false
  | some _, none => false

/-- A hosted zone as returned by the provider's zone listing. -/
structure HostedZone where
  Id : String
  Name : Str
  deriving Repr, DecidableEq

/-- A resource record set as returned by the provider's record listing;
provider-returned records always carry a type.  The provider-defined
payload is irrelevant to every claim and elided. -/
structure RRecord where
  Name : Str
  Typ : Str
  deriving Repr, DecidableEq

/-- The caller-scoped mutable context: the only field the engine reads or
writes is the cached zone (`ctx.zone`). -/
structure Ctx where
  zone : Option HostedZone
  deriving Repr, DecidableEq

/-- A `listResourceRecordSets` response: the record page plus the
truncation flag and the declared next-record cursor. -/
structure RecordsPage where
  ResourceRecordSets : List RRecord
  IsTruncated : Bool
  NextRecordName : Option Str
  NextRecordType : Option Str
  deriving Repr, DecidableEq

/-- The `listResourceRecordSets` request issued by `resourceRecord`
(`common.js` lines 126-131). -/
structure ListRecordsReq where
  HostedZoneId : String
  MaxItems : String
  StartRecordName : Str
  StartRecordType : Option Str
  deriving Repr, DecidableEq

/-- One change of a change batch (`common.js` lines 199-205). -/
structure Change where
  Action : String
  ResourceRecordSet : RRecord
  deriving Repr, DecidableEq

/-- The change batch of a `changeResourceRecordSets` request
(`common.js` lines 198-208). -/
structure ChangeBatch where
  Changes : List Change
  Comment : Option String
  deriving Repr, DecidableEq

/-- The `changeResourceRecordSets` request (`common.js` lines 196-209). -/
structure ChangeReq where
  HostedZoneId : String
  ChangeBatch : ChangeBatch
  deriving Repr, DecidableEq

/-- The cursor part of a paginated `listResourceRecordSets` request as
`zoneRecords` rebuilds it on truncation (`common.js` lines 179-182). -/
structure RecordsCursor where
  StartRecordName : Option Str
  StartRecordType : Option Str
  deriving Repr, DecidableEq

/-- A provider call the engine issues; the trace of these is returned by
every modelled operation. -/
inductive PCall where
  | listZones
  | listRecords (req : ListRecordsReq)
  | listRecordsPage (zoneId : String) (cursor : RecordsCursor)
  | changeRecords (req : ChangeReq)
  deriving Repr, DecidableEq

/-- The `listHostedZones` branch of `zoneWhere` (`common.js` lines 69-82):
list the zones, take `_.find` (first in provider order) of the predicate,
cache it on the context on success, errback `"Zone not found"` otherwise;
a transport error is routed to the errback. -/
def zoneWhereList (predicate : HostedZone → Bool) (ctx : Ctx)
    (zonesResp : Except String (List HostedZone)) :
    List PCall × Ctx × Except String HostedZone :=
  match zonesResp with
  | .error r => ([.listZones], ctx, .error r)
  | .ok zones =>
    match zones.find? predicate with
    | none => ([.listZones], ctx, .error "Zone not found")
    | some target => ([.listZones], { ctx with zone := some target }, .ok target)

/-- `zoneWhere` (`common.js` lines 59-83), with the zone-listing response
passed in explicitly.  Returns the provider calls issued, the updated
context, and the callback/errback outcome. -/
def zoneWhereRun (predicate : HostedZone → Bool) (ctx : Ctx)
    (zonesResp : Except String (List HostedZone)) :
    List PCall × Ctx × Except String HostedZone :=
  match ctx.zone with
  | some z =>
    if predicate z then ([], ctx, .ok z)
    else zoneWhereList predicate ctx zonesResp
  | none => zoneWhereList predicate ctx zonesResp

/-- The predicate `zoneNamed` builds (`common.js` lines 89-92): the query
name gets the trailing dot appended if absent, the zone's `Name` is
compared verbatim. -/
def zoneNamedPred (zoneName : Str) (zone : HostedZone) : Bool :=
  zone.Name == normalizeName zoneName

/-- The predicate `hostZone` builds (`common.js` lines 100-103): the host
gets the trailing dot appended if absent, then the test is whether it ends
with `'.' + zone.Name` (zone's `Name` verbatim). -/
def hostZonePred (host : Str) (zone : HostedZone) : Bool :=
  jsEndsWith (normalizeName host) ('.' :: zone.Name)

/-- The alternatives of `patterns.valid_types` (`common.js` line 16). -/
def validTypes : List Str :=
  (["SOA", "AAAA", "A", "TXT", "NS", "CNAME", "MX", "PTR", "SRV", "SPF"]).map String.toList

/-- The anchored case-insensitive regex test
`new RegExp('^' + patterns.valid_types + '$', 'i').test(t)`
(`common.js` line 120): `t` equals one of the ten alternatives up to
ASCII case. -/
def isValidType (t : Str) : Bool :=
  validTypes.any (fun v => t.map Char.toUpper == v)

/-- The type-validation step of `resourceRecord` (`common.js` lines
119-123): a type passing the regex is kept verbatim; a defined type
failing it errbacks immediately; an undefined type stays undefined (the
regex, applied to JS `undefined`, tests the string `"undefined"`, which
matches no alternative). -/
def resolveType (t : Option Str) : Except String (Option Str) :=
  match t with
  | some s =>
    if isValidType s then .ok (some s)
    else .error ("Bad record type supplied \"" ++ String.mk s ++ "\"")
  | none => .ok none

/-- The evaluation of the bounded one-record page inside `resourceRecord`
(`common.js` lines 135-150): no first record or a name mismatch errbacks
`"No such record with given name"`; a type mismatch errbacks
`"No such record name with specified type"`; a matching declared next
record errbacks `"Aambiguous records selection"` (the code's spelling);
otherwise the first record is the result. -/
def evalRecordPage (rr_name : Str) (rr_type : Option Str) (data : RecordsPage) :
    Except String RRecord :=
  match data.ResourceRecordSets.head? with
  | some result =>
    if recordNameMatch rr_name result.Name then
      if recordTypeMatch rr_type (some result.Typ) then
        if nextRecordMatch ⟨rr_name, rr_type⟩ ⟨data.NextRecordName, data.NextRecordType⟩ then
          .error "Aambiguous records selection"
        else .ok result
      else .error "No such record name with specified type"
    else .error "No such record with given name"
  | none => .error "No such record with given name"

/-- `resourceRecord` (`common.js` lines 113-153), with the provider's
zone-listing and record-page responses passed in explicitly: validate the
caller's type, resolve the owning zone via the `hostZone` predicate, issue
the bounded `MaxItems: '1'` page request starting at
`(rr_name, rr_type)`, then evaluate the page. -/
def resourceRecord (rr_data : RecordQuery) (ctx : Ctx)
    (zonesResp : Except String (List HostedZone))
    (pageResp : Except String RecordsPage) :
    List PCall × Ctx × Except String RRecord :=
  match resolveType rr_data.Typ with
  | .error e => ([], ctx, .error e)
  | .ok rr_type =>
    match zoneWhereRun (hostZonePred rr_data.Name) ctx zonesResp with
    | (tr, ctx2, .error e) => (tr, ctx2, .error e)
    | (tr, ctx2, .ok zone) =>
      let req : ListRecordsReq :=
        { HostedZoneId := zone.Id, MaxItems := "1",
          StartRecordName := rr_data.Name, StartRecordType := rr_type }
      match pageResp with
      | .error e => (tr ++ [.listRecords req], ctx2, .error e)
      | .ok data => (tr ++ [.listRecords req], ctx2, evalRecordPage rr_data.Name rr_type data)

/-- The per-record filter of `zoneRecords` (`common.js` line 172): run the
callback when there is no predicate or the predicate holds. -/
def recPasses (predicate : Option (RRecord → Bool)) (r : RRecord) : Bool :=
  match predicate with
  | none => true
  | some p => p r

/-- The cursor `zoneRecords` rebuilds from a truncated page's declared
next record (`common.js` lines 179-182). -/
def pageCursor (data : RecordsPage) : RecordsCursor :=
  { StartRecordName := data.NextRecordName, StartRecordType := data.NextRecordType }

/-- Terminal outcome of a `zoneRecords` enumeration. -/
inductive EnumOutcome where
  | done
  | failed (msg : String)
  | noResponse
  deriving Repr, DecidableEq

/-- `zoneRecords` (`common.js` lines 162-190), with the provider's page
responses passed in as a list consumed one per request.  Returns the page
requests issued (zone id and cursor), the records delivered to the
callback in order, the number of `final_callback` invocations, and the
terminal outcome (`noResponse` marks a request whose response is not
modelled, i.e. the response list ran out). -/
def zoneRecordsRun (zone : HostedZone) (predicate : Option (RRecord → Bool)) :
    List (Except String RecordsPage) → RecordsCursor →
    List PCall × List RRecord × Nat × EnumOutcome
  | [], c => ([.listRecordsPage zone.Id c], [], 0, .noResponse)
  | .error e :: _, c => ([.listRecordsPage zone.Id c], [], 0, .failed e)
  | .ok data :: rest, c =>
    let emitted := data.ResourceRecordSets.filter (recPasses predicate)
    if data.IsTruncated then
      let (reqs, ems, dones, out) := zoneRecordsRun zone predicate rest (pageCursor data)
      (.listRecordsPage zone.Id c :: reqs, emitted ++ ems, dones, out)
    else
      ([.listRecordsPage zone.Id c], emitted, 1, .done)

/-- `updateRecord` (`common.js` lines 192-215), with the provider's
response passed in explicitly: build the single change batch
`[DELETE old, CREATE _new]` with the optional comment, submit it against
`zone.Id`, and route the response to the callback or errback. -/
def updateRecordRun (zone : HostedZone) (old _new : RRecord) (comment : Option String)
    (resp : Except String String) :
    List PCall × Except String String :=
  let params : ChangeReq :=
    { HostedZoneId := zone.Id,
      ChangeBatch :=
        { Changes :=
            [ { Action := "DELETE", ResourceRecordSet := old },
              { Action := "CREATE", ResourceRecordSet := _new } ],
          Comment := comment } }
  match resp with
  | .error e => ([.changeRecords params], .error e)
  | .ok d => ([.changeRecords params], .ok d)

/-- Modelled from the spec (section 4.2): the `resolveZoneNamed` predicate
as the spec words it — "exact match after normalization", i.e. the
normalized query name compared with the zone's normalized Name. -/
def specZoneNamedPred (zoneName : Str) (zone : HostedZone) : Bool :=
  normalizeName zoneName == normalizeName zone.Name

/-- Modelled from the spec (section 4.2): the `resolveZoneForHost`
predicate as the spec words it — the normalized host ends with `'.'` plus
the zone's normalized name. -/
def specHostZonePred (host : Str) (zone : HostedZone) : Bool :=
  jsEndsWith (normalizeName host) ('.' :: normalizeName zone.Name)

/-! ## Helper lemmas -/

theorem jsEndsWith_iff {s suffix : Str} : jsEndsWith s suffix = true ↔ suffix <:+ s := by
  simp [jsEndsWith]

theorem normalizeName_endsWith (n : Str) : jsEndsWith (normalizeName n) ['.'] = true := by
  unfold normalizeName
  by_cases h : jsEndsWith n ['.'] = true
  · rw [if_pos h]; exact h
  · rw [if_neg h]
    exact jsEndsWith_iff.mpr ⟨n, rfl⟩

theorem normalizeName_idem (n : Str) : normalizeName (normalizeName n) = normalizeName n := by
  rw [normalizeName, if_pos (normalizeName_endsWith n)]

theorem normalizeName_eq_self {n : Str} (h : jsEndsWith n ['.'] = true) :
    normalizeName n = n := by
  rw [normalizeName, if_pos h]

theorem recordNameMatch_normalize (a b : Str) :
    recordNameMatch a b = recordNameMatch (normalizeName a) (normalizeName b) := by
  rw [recordNameMatch, recordNameMatch, normalizeName_idem, normalizeName_idem]

/-! ## Claims -/

/-- **C10.** Name normalization (appending the trailing `'.'` when absent)
is idempotent, and name matching is invariant under normalizing either
argument. -/
theorem normalize_idem_and_match_invariant :
    (∀ a : Str, normalizeName (normalizeName a) = normalizeName a) ∧
    (∀ a b : Str, recordNameMatch a b = recordNameMatch (normalizeName a) (normalizeName b)) :=
  ⟨normalizeName_idem, recordNameMatch_normalize⟩

/-- **C8.** `nextRecordMatch query next` is true iff `next` has both its
Name and its Type defined, the names match after normalization, and the
types match under wildcard semantics; a candidate with either field
undefined never creates ambiguity. -/
theorem nextRecordMatch_characterisation (q : RecordQuery) (c : CursorRec) :
    (nextRecordMatch q c = true ↔
      ∃ n t, c.Name = some n ∧ c.Typ = some t ∧
        recordNameMatch q.Name n = true ∧ recordTypeMatch q.Typ (some t) = true) ∧
    (c.Name = none ∨ c.Typ = none → nextRecordMatch q c = false) := by
  constructor
  · unfold nextRecordMatch
    cases hn : c.Name with
    | none =>
      simp
    | some n =>
      cases ht : c.Typ with
      | none => simp
      | some t =>
        by_cases hm : recordNameMatch q.Name n = true
        · simp [hm]
        · simp [hm]
  · intro h
    unfold nextRecordMatch
    rcases h with h | h
    · rw [h]
    · rw [h]
      cases c.Name <;> simp

/-- **C8 witness.** At a concrete query and fully-defined matching cursor
the characterisation yields `nextRecordMatch = true`; with an undefined
Type it yields `false`. -/
theorem nextRecordMatch_characterisation_witness :
    nextRecordMatch ⟨"a.example.com.".toList, none⟩
      ⟨some "a.example.com.".toList, some "CNAME".toList⟩ = true ∧
    nextRecordMatch ⟨"a.example.com.".toList, none⟩
      ⟨some "a.example.com.".toList, none⟩ = false :=
  ⟨(nextRecordMatch_characterisation ⟨"a.example.com.".toList, none⟩
      ⟨some "a.example.com.".toList, some "CNAME".toList⟩).1.mpr
      ⟨"a.example.com.".toList, "CNAME".toList, rfl, rfl, by decide, by decide⟩,
   (nextRecordMatch_characterisation ⟨"a.example.com.".toList, none⟩
      ⟨some "a.example.com.".toList, none⟩).2 (Or.inr rfl)⟩

/-- **C3.** `updateRecord` submits exactly one change-batch request; its
`HostedZoneId` is the supplied zone's `Id` and its `Changes` list is
exactly `[DELETE old, CREATE new]` in that order, with the optional
comment attached to the batch. -/
theorem updateRecord_single_batch (zone : HostedZone) (old _new : RRecord)
    (comment : Option String) (resp : Except String String) :
    (updateRecordRun zone old _new comment resp).1 =
      [PCall.changeRecords
        { HostedZoneId := zone.Id,
          ChangeBatch :=
            { Changes :=
                [ { Action := "DELETE", ResourceRecordSet := old },
                  { Action := "CREATE", ResourceRecordSet := _new } ],
              Comment := comment } }] := by
  cases resp <;> rfl

/-- **C4.** `zoneWhere`: a cached zone satisfying the predicate is
returned with no provider call and an unchanged context; otherwise the
zones are listed and the first zone satisfying the predicate (in
provider-returned order, i.e. `List.find?`) is stored in the context and
returned, while an empty search fails with `"Zone not found"`. -/
theorem zoneWhere_cache_then_list (predicate : HostedZone → Bool) (ctx : Ctx)
    (zonesResp : Except String (List HostedZone)) :
    (∀ z, ctx.zone = some z → predicate z = true →
      zoneWhereRun predicate ctx zonesResp = ([], ctx, .ok z)) ∧
    (∀ zones, zonesResp = .ok zones →
      (ctx.zone = none ∨ ∃ z, ctx.zone = some z ∧ predicate z = false) →
      ((∀ t, zones.find? predicate = some t →
          zoneWhereRun predicate ctx zonesResp =
            ([.listZones], { ctx with zone := some t }, .ok t) ∧ predicate t = true) ∧
       (zones.find? predicate = none →
          zoneWhereRun predicate ctx zonesResp = ([.listZones], ctx, .error "Zone not found")))) := by
  constructor
  · intro z hz hpz
    simp [zoneWhereRun, hz, hpz]
  · intro zones hresp hmiss
    have hlist : zoneWhereRun predicate ctx zonesResp = zoneWhereList predicate ctx zonesResp := by
      rcases hmiss with h | ⟨z, hz, hpz⟩
      · simp [zoneWhereRun, h]
      · simp [zoneWhereRun, hz, hpz]
    subst hresp
    constructor
    · intro t ht
      exact ⟨by rw [hlist]; simp [zoneWhereList, ht], List.find?_some ht⟩
    · intro hn
      rw [hlist]; simp [zoneWhereList, hn]

/-- **C4 witness.** A context caching a satisfying zone is served from the
cache with no provider call; a fresh context is served from the listing,
which caches the first match; an empty listing fails `"Zone not found"`. -/
theorem zoneWhere_cache_then_list_witness :
    zoneWhereRun (fun z => z.Id == "Z1") ⟨some ⟨"Z1", "example.com.".toList⟩⟩
        (.ok []) = ([], ⟨some ⟨"Z1", "example.com.".toList⟩⟩, .ok ⟨"Z1", "example.com.".toList⟩) ∧
    zoneWhereRun (fun z => z.Id == "Z1") ⟨none⟩ (.ok [⟨"Z1", "example.com.".toList⟩]) =
        ([.listZones], ⟨some ⟨"Z1", "example.com.".toList⟩⟩, .ok ⟨"Z1", "example.com.".toList⟩) ∧
    zoneWhereRun (fun z => z.Id == "Z1") ⟨none⟩ (.ok []) =
        ([.listZones], ⟨none⟩, .error "Zone not found") :=
  ⟨(zoneWhere_cache_then_list (fun z => z.Id == "Z1") ⟨some ⟨"Z1", "example.com.".toList⟩⟩
      (.ok [])).1 ⟨"Z1", "example.com.".toList⟩ rfl (by decide),
   ((zoneWhere_cache_then_list (fun z => z.Id == "Z1") ⟨none⟩
      (.ok [⟨"Z1", "example.com.".toList⟩])).2 [⟨"Z1", "example.com.".toList⟩] rfl
      (Or.inl rfl)).1 ⟨"Z1", "example.com.".toList⟩ (by decide) |>.1,
   ((zoneWhere_cache_then_list (fun z => z.Id == "Z1") ⟨none⟩
      (.ok [])).2 [] rfl (Or.inl rfl)).2 (by decide)⟩

/-- **C6.** Provided the provider-returned zone's `Name` carries the
trailing `'.'` (the invariant the code relies on), the predicate built by
`zoneNamed` coincides with the spec's "normalized query name equals the
zone's normalized Name", and the predicate built by `hostZone` coincides
with the spec's "normalized host ends with `'.'` plus the zone's
normalized name". -/
theorem zone_preds_match_spec (zone : HostedZone) (q host : Str)
    (h : jsEndsWith zone.Name ['.'] = true) :
    zoneNamedPred q zone = specZoneNamedPred q zone ∧
    hostZonePred host zone = specHostZonePred host zone := by
  have hz : normalizeName zone.Name = zone.Name := normalizeName_eq_self h
  constructor
  · unfold zoneNamedPred specZoneNamedPred
    rw [hz, Bool.beq_comm]
  · unfold hostZonePred specHostZonePred
    rw [hz]

/-- **C6 witness.** The two predicate characterisations instantiated on a
concrete dot-terminated zone. -/
theorem zone_preds_match_spec_witness :
    zoneNamedPred "example.com".toList ⟨"Z1", "example.com.".toList⟩ =
      specZoneNamedPred "example.com".toList ⟨"Z1", "example.com.".toList⟩ ∧
    hostZonePred "a.example.com".toList ⟨"Z1", "example.com.".toList⟩ =
      specHostZonePred "a.example.com".toList ⟨"Z1", "example.com.".toList⟩ :=
  zone_preds_match_spec ⟨"Z1", "example.com.".toList⟩ "example.com".toList
    "a.example.com".toList (by decide)

theorem hostZonePred_self_false {zone : HostedZone} {host : Str}
    (h : normalizeName host = zone.Name) : hostZonePred host zone = false := by
  unfold hostZonePred
  rw [h]
  by_contra hc
  have hsuf : ('.' :: zone.Name) <:+ zone.Name := jsEndsWith_iff.mp (by simpa using hc)
  have hlen := hsuf.length_le
  simp at hlen

/-- **C5.** A name strictly inside a zone (some label, a dot, then the
zone name) satisfies the `hostZone` ownership predicate, but a host whose
normalized name equals the zone's own `Name` never does; consequently a
point query at the zone apex resolves to `"Zone not found"` even when
that very zone is in the provider's listing. -/
theorem apex_query_zone_not_found :
    (∀ (zone : HostedZone) (w : Str), jsEndsWith zone.Name ['.'] = true →
      hostZonePred (w ++ '.' :: zone.Name) zone = true) ∧
    (∀ (zone : HostedZone) (host : Str), normalizeName host = zone.Name →
      hostZonePred host zone = false) ∧
    (∀ (zone : HostedZone) (pageResp : Except String RecordsPage),
      jsEndsWith zone.Name ['.'] = true →
      resourceRecord ⟨zone.Name, none⟩ ⟨none⟩ (.ok [zone]) pageResp =
        ([.listZones], ⟨none⟩, .error "Zone not found")) := by
  refine ⟨?_, fun _ _ h => hostZonePred_self_false h, ?_⟩
  · intro zone w h
    obtain ⟨u, hu⟩ : ['.'] <:+ zone.Name := jsEndsWith_iff.mp h
    have h1 : jsEndsWith (w ++ '.' :: zone.Name) ['.'] = true :=
      jsEndsWith_iff.mpr ⟨w ++ '.' :: u, by simp [← hu]⟩
    unfold hostZonePred
    rw [normalizeName_eq_self h1]
    exact jsEndsWith_iff.mpr ⟨w, rfl⟩
  · intro zone pageResp h
    have hp : hostZonePred zone.Name zone = false :=
      hostZonePred_self_false (normalizeName_eq_self h)
    simp [resourceRecord, resolveType, zoneWhereRun, zoneWhereList, List.find?, hp]

/-- **C5 witness.** For the concrete zone `example.com.`:
`www.example.com.` is owned by it, the apex name is not, and an apex
point query against a listing holding exactly that zone fails with
`"Zone not found"`. -/
theorem apex_query_zone_not_found_witness :
    hostZonePred ("www".toList ++ '.' :: "example.com.".toList) ⟨"Z1", "example.com.".toList⟩ = true ∧
    hostZonePred "example.com.".toList ⟨"Z1", "example.com.".toList⟩ = false ∧
    resourceRecord ⟨"example.com.".toList, none⟩ ⟨none⟩ (.ok [⟨"Z1", "example.com.".toList⟩])
        (.ok ⟨[], false, none, none⟩) =
      ([.listZones], ⟨none⟩, .error "Zone not found") :=
  ⟨apex_query_zone_not_found.1 ⟨"Z1", "example.com.".toList⟩ "www".toList (by decide),
   apex_query_zone_not_found.2.1 ⟨"Z1", "example.com.".toList⟩ "example.com.".toList (by decide),
   apex_query_zone_not_found.2.2 ⟨"Z1", "example.com.".toList⟩ (.ok ⟨[], false, none, none⟩)
     (by decide)⟩

theorem resourceRecord_eval (q : RecordQuery) {ctx : Ctx}
    {zonesResp : Except String (List HostedZone)}
    {tr : List PCall} {ctx2 : Ctx} {zone : HostedZone}
    (rt : Option Str) (data : RecordsPage)
    (hty : resolveType q.Typ = .ok rt)
    (hz : zoneWhereRun (hostZonePred q.Name) ctx zonesResp = (tr, ctx2, .ok zone)) :
    resourceRecord q ctx zonesResp (.ok data) =
      (tr ++ [.listRecords ⟨zone.Id, "1", q.Name, rt⟩], ctx2,
        evalRecordPage q.Name rt data) := by
  unfold resourceRecord
  rw [hty, hz]

/-- **C1.** A wildcard point query whose one-record page returns a
name-matching record, while the declared next cursor has both fields
defined with a matching name (any type matches the wildcard), fails with
the ambiguous-selection error and never returns the record. -/
theorem wildcard_ambiguous_follower_fails (q_name : Str) (ctx : Ctx)
    (zonesResp : Except String (List HostedZone)) (data : RecordsPage)
    (R : RRecord) (tr : List PCall) (ctx2 : Ctx) (zone : HostedZone) (n t : Str)
    (hz : zoneWhereRun (hostZonePred q_name) ctx zonesResp = (tr, ctx2, .ok zone))
    (hR : data.ResourceRecordSets.head? = some R)
    (hname : recordNameMatch q_name R.Name = true)
    (hn : data.NextRecordName = some n)
    (ht : data.NextRecordType = some t)
    (hnm : recordNameMatch q_name n = true) :
    (resourceRecord ⟨q_name, none⟩ ctx zonesResp (.ok data)).2.2 =
      .error "Aambiguous records selection" ∧
    (resourceRecord ⟨q_name, none⟩ ctx zonesResp (.ok data)).2.2 ≠ .ok R := by
  have hev : evalRecordPage q_name none data = .error "Aambiguous records selection" := by
    unfold evalRecordPage
    rw [hR]
    simp [hname, recordTypeMatch, nextRecordMatch, hn, ht, hnm]
  rw [resourceRecord_eval ⟨q_name, none⟩ none data rfl hz]
  simp [hev]

/-- **C1 witness.** The spec's concrete scenario: wildcard query for
`a.example.com.` hitting a page with record `(a.example.com., A)` and
next cursor `(a.example.com., CNAME)` fails ambiguous. -/
theorem wildcard_ambiguous_follower_fails_witness :
    (resourceRecord ⟨"a.example.com.".toList, none⟩ ⟨some ⟨"Z1", "example.com.".toList⟩⟩
        (.ok []) (.ok ⟨[⟨"a.example.com.".toList, "A".toList⟩], true,
          some "a.example.com.".toList, some "CNAME".toList⟩)).2.2 =
      .error "Aambiguous records selection" ∧
    (resourceRecord ⟨"a.example.com.".toList, none⟩ ⟨some ⟨"Z1", "example.com.".toList⟩⟩
        (.ok []) (.ok ⟨[⟨"a.example.com.".toList, "A".toList⟩], true,
          some "a.example.com.".toList, some "CNAME".toList⟩)).2.2 ≠
      .ok ⟨"a.example.com.".toList, "A".toList⟩ :=
  wildcard_ambiguous_follower_fails "a.example.com.".toList
    ⟨some ⟨"Z1", "example.com.".toList⟩⟩ (.ok [])
    ⟨[⟨"a.example.com.".toList, "A".toList⟩], true,
      some "a.example.com.".toList, some "CNAME".toList⟩
    ⟨"a.example.com.".toList, "A".toList⟩ [] ⟨some ⟨"Z1", "example.com.".toList⟩⟩
    ⟨"Z1", "example.com.".toList⟩ "a.example.com.".toList "CNAME".toList
    rfl rfl (by decide) rfl rfl (by decide)

/-- **C2.** The error checks of `resourceRecord` are ordered: a defined
but unrecognized type fails immediately with the bad-type error and an
empty provider-call trace (so before any zone lookup or provider call,
and never treated as wildcard); once the type is validated and the zone
resolved, the single page is evaluated by `evalRecordPage`, where a
missing first record or a name mismatch yields the not-found error
regardless of types, a name-matching record with a mismatching type
yields the type-mismatch error regardless of the next cursor, and the
ambiguous error can only arise from a record passing both the name and
the type check. -/
theorem resolveRecord_check_order :
    (∀ (q : RecordQuery) (ctx : Ctx) (zonesResp : Except String (List HostedZone))
        (pageResp : Except String RecordsPage) (t : Str),
      q.Typ = some t → isValidType t = false →
      resourceRecord q ctx zonesResp pageResp =
        ([], ctx, .error ("Bad record type supplied \"" ++ String.mk t ++ "\""))) ∧
    (∀ (q : RecordQuery) (ctx : Ctx) (zonesResp : Except String (List HostedZone))
        (data : RecordsPage) (rt : Option Str) (tr : List PCall) (ctx2 : Ctx)
        (zone : HostedZone),
      resolveType q.Typ = .ok rt →
      zoneWhereRun (hostZonePred q.Name) ctx zonesResp = (tr, ctx2, .ok zone) →
      resourceRecord q ctx zonesResp (.ok data) =
        (tr ++ [.listRecords ⟨zone.Id, "1", q.Name, rt⟩], ctx2,
          evalRecordPage q.Name rt data)) ∧
    (∀ (rr_name : Str) (rt : Option Str) (data : RecordsPage),
      (data.ResourceRecordSets.head? = none ∨
        ∃ R, data.ResourceRecordSets.head? = some R ∧ recordNameMatch rr_name R.Name = false) →
      evalRecordPage rr_name rt data = .error "No such record with given name") ∧
    (∀ (rr_name : Str) (rt : Option Str) (data : RecordsPage) (R : RRecord),
      data.ResourceRecordSets.head? = some R → recordNameMatch rr_name R.Name = true →
      recordTypeMatch rt (some R.Typ) = false →
      evalRecordPage rr_name rt data = .error "No such record name with specified type") ∧
    (∀ (rr_name : Str) (rt : Option Str) (data : RecordsPage),
      evalRecordPage rr_name rt data = .error "Aambiguous records selection" →
      ∃ R, data.ResourceRecordSets.head? = some R ∧
        recordNameMatch rr_name R.Name = true ∧ recordTypeMatch rt (some R.Typ) = true) := by
  refine ⟨?_, ?_, ?_, ?_, ?_⟩
  · intro q ctx zonesResp pageResp t hq hbad
    unfold resourceRecord resolveType
    rw [hq]
    simp [hbad]
  · intro q ctx zonesResp data rt tr ctx2 zone hty hz
    exact resourceRecord_eval q rt data hty hz
  · intro rr_name rt data h
    unfold evalRecordPage
    rcases h with h | ⟨R, hR, hname⟩
    · rw [h]
    · rw [hR]
      simp [hname]
  · intro rr_name rt data R hR hname hty
    unfold evalRecordPage
    rw [hR]
    simp [hname, hty]
  · intro rr_name rt data h
    unfold evalRecordPage at h
    cases hR : data.ResourceRecordSets.head? with
    | none => rw [hR] at h; exact absurd h (by simp)
    | some R =>
      rw [hR] at h
      refine ⟨R, rfl, ?_, ?_⟩
      · by_contra hn
        simp [Bool.not_eq_true] at hn
        simp [hn] at h
      · by_contra hn
        simp [Bool.not_eq_true] at hn
        by_cases hm : recordNameMatch rr_name R.Name = true
        · simp [hm, hn] at h
        · simp [Bool.not_eq_true] at hm
          simp [hm] at h

/-- **C2 witness.** Concretely: a bad type `"FOO"` fails with the
bad-type message and no provider call; a page whose record name differs
from the query yields not-found even though its type mismatches too; a
name-matching record of type `CNAME` against an `A` query yields the
type-mismatch error even with a matching next cursor present. -/
theorem resolveRecord_check_order_witness :
    resourceRecord ⟨"a.example.com.".toList, some "FOO".toList⟩ ⟨none⟩ (.ok []) (.ok ⟨[], false, none, none⟩) =
      ([], ⟨none⟩, .error "Bad record type supplied \"FOO\"") ∧
    evalRecordPage "a.example.com.".toList (some "A".toList)
        ⟨[⟨"b.example.com.".toList, "CNAME".toList⟩], false, none, none⟩ =
      .error "No such record with given name" ∧
    evalRecordPage "a.example.com.".toList (some "A".toList)
        ⟨[⟨"a.example.com.".toList, "CNAME".toList⟩], false,
          some "a.example.com.".toList, some "A".toList⟩ =
      .error "No such record name with specified type" :=
  ⟨by
    have h := resolveRecord_check_order.1 ⟨"a.example.com.".toList, some "FOO".toList⟩
      ⟨none⟩ (.ok []) (.ok ⟨[], false, none, none⟩) "FOO".toList rfl (by decide)
    rw [h]
    rfl,
   resolveRecord_check_order.2.2.1 "a.example.com.".toList (some "A".toList)
     ⟨[⟨"b.example.com.".toList, "CNAME".toList⟩], false, none, none⟩
     (Or.inr ⟨⟨"b.example.com.".toList, "CNAME".toList⟩, rfl, by decide⟩),
   resolveRecord_check_order.2.2.2.1 "a.example.com.".toList (some "A".toList)
     ⟨[⟨"a.example.com.".toList, "CNAME".toList⟩], false,
       some "a.example.com.".toList, some "A".toList⟩
     ⟨"a.example.com.".toList, "CNAME".toList⟩ rfl (by decide) (by decide)⟩

/-- **C7 counterexample.** A lowercase input type does not behave
identically to its uppercase form: for the query `(a.example.com., "a")`
against a page holding the record `(a.example.com., A)` the resolution
fails with the type-mismatch error and the page request carries the
lowercase `"a"` verbatim as `StartRecordType`, whereas the same query
with `"A"` succeeds with the record. -/
theorem type_case_not_normalized_counterexample :
    (resourceRecord ⟨"a.example.com.".toList, some "a".toList⟩
        ⟨some ⟨"Z1", "example.com.".toList⟩⟩ (.ok [])
        (.ok ⟨[⟨"a.example.com.".toList, "A".toList⟩], false, none, none⟩)).2.2 =
      .error "No such record name with specified type" ∧
    (resourceRecord ⟨"a.example.com.".toList, some "a".toList⟩
        ⟨some ⟨"Z1", "example.com.".toList⟩⟩ (.ok [])
        (.ok ⟨[⟨"a.example.com.".toList, "A".toList⟩], false, none, none⟩)).1 =
      [.listRecords ⟨"Z1", "1", "a.example.com.".toList, some "a".toList⟩] ∧
    (resourceRecord ⟨"a.example.com.".toList, some "A".toList⟩
        ⟨some ⟨"Z1", "example.com.".toList⟩⟩ (.ok [])
        (.ok ⟨[⟨"a.example.com.".toList, "A".toList⟩], false, none, none⟩)).2.2 =
      .ok ⟨"a.example.com.".toList, "A".toList⟩ :=
  ⟨rfl, rfl, rfl⟩

/-- **C7 (amended).** `resourceRecord` accepts a caller-supplied type
matching one of the ten valid types case-insensitively, but then uses the
supplied string verbatim — not a case-normalized form — both as the
bounded page request's `StartRecordType` and in the type-match
comparison, which is exact string equality; so a lowercase input type is
accepted by validation yet need not behave like its uppercase form. -/
theorem valid_type_used_verbatim (t q_name : Str) (ctx : Ctx)
    (zonesResp : Except String (List HostedZone)) (data : RecordsPage)
    (tr : List PCall) (ctx2 : Ctx) (zone : HostedZone)
    (hv : isValidType t = true)
    (hz : zoneWhereRun (hostZonePred q_name) ctx zonesResp = (tr, ctx2, .ok zone)) :
    resolveType (some t) = .ok (some t) ∧
    resourceRecord ⟨q_name, some t⟩ ctx zonesResp (.ok data) =
      (tr ++ [.listRecords ⟨zone.Id, "1", q_name, some t⟩], ctx2,
        evalRecordPage q_name (some t) data) ∧
    (∀ rt : Str, recordTypeMatch (some t) (some rt) = (t == rt)) := by
  have hty : resolveType (some t) = .ok (some t) := by simp [resolveType, hv]
  exact ⟨hty, resourceRecord_eval ⟨q_name, some t⟩ (some t) data hty hz, fun _ => rfl⟩

/-- **C7 (amended) witness.** The lowercase type `"a"` passes validation
and is carried verbatim into the page request; its type comparison
against the record type `"A"` is exact equality, hence false. -/
theorem valid_type_used_verbatim_witness :
    resolveType (some "a".toList) = .ok (some "a".toList) ∧
    resourceRecord ⟨"a.example.com.".toList, some "a".toList⟩
        ⟨some ⟨"Z1", "example.com.".toList⟩⟩ (.ok [])
        (.ok ⟨[⟨"a.example.com.".toList, "A".toList⟩], false, none, none⟩) =
      ([] ++ [.listRecords ⟨"Z1", "1", "a.example.com.".toList, some "a".toList⟩],
        ⟨some ⟨"Z1", "example.com.".toList⟩⟩,
        evalRecordPage "a.example.com.".toList (some "a".toList)
          ⟨[⟨"a.example.com.".toList, "A".toList⟩], false, none, none⟩) ∧
    (∀ rt : Str, recordTypeMatch (some "a".toList) (some rt) = ("a".toList == rt)) :=
  valid_type_used_verbatim "a".toList "a.example.com.".toList
    ⟨some ⟨"Z1", "example.com.".toList⟩⟩ (.ok [])
    ⟨[⟨"a.example.com.".toList, "A".toList⟩], false, none, none⟩
    [] ⟨some ⟨"Z1", "example.com.".toList⟩⟩ ⟨"Z1", "example.com.".toList⟩
    (by decide) rfl

/-- **C9.** `zoneRecords` over a sequence of truncated pages closed by a
non-truncated page: each truncated page triggers one further request whose
cursor is the page's declared next name/type, the callback receives
exactly the predicate-passing records in provider order, and the
completion callback runs exactly once, after the first non-truncated
page.  A page-request error aborts the enumeration with the error, zero
completion calls, and the records of the pages already processed kept. -/
theorem zoneRecords_pagination (zone : HostedZone) (predicate : Option (RRecord → Bool)) :
    (∀ (ps : List RecordsPage) (last : RecordsPage) (c : RecordsCursor),
      (∀ p ∈ ps, p.IsTruncated = true) → last.IsTruncated = false →
      zoneRecordsRun zone predicate (ps.map .ok ++ [.ok last]) c =
        ((c :: ps.map pageCursor).map (PCall.listRecordsPage zone.Id),
         ((ps ++ [last]).map (fun p => p.ResourceRecordSets.filter (recPasses predicate))).flatten,
         1, .done)) ∧
    (∀ (ps : List RecordsPage) (e : String) (rest : List (Except String RecordsPage))
        (c : RecordsCursor),
      (∀ p ∈ ps, p.IsTruncated = true) →
      zoneRecordsRun zone predicate (ps.map .ok ++ .error e :: rest) c =
        ((c :: ps.map pageCursor).map (PCall.listRecordsPage zone.Id),
         (ps.map (fun p => p.ResourceRecordSets.filter (recPasses predicate))).flatten,
         0, .failed e)) := by
  constructor
  · intro ps last
    induction ps with
    | nil =>
      intro c _ hlast
      simp [zoneRecordsRun, hlast]
    | cons p ps ih =>
      intro c hps hlast
      have hp : p.IsTruncated = true := hps p (List.mem_cons_self _ _)
      have hps' : ∀ x ∈ ps, x.IsTruncated = true := fun x hx => hps x (List.mem_cons_of_mem _ hx)
      have hrec := ih (pageCursor p) hps' hlast
      simp only [List.map_cons, List.cons_append, zoneRecordsRun, hp, if_true, hrec]
      simp [hrec]
  · intro ps e rest
    induction ps with
    | nil =>
      intro c _
      simp [zoneRecordsRun]
    | cons p ps ih =>
      intro c hps
      have hp : p.IsTruncated = true := hps p (List.mem_cons_self _ _)
      have hps' : ∀ x ∈ ps, x.IsTruncated = true := fun x hx => hps x (List.mem_cons_of_mem _ hx)
      have hrec := ih (pageCursor p) hps'
      simp only [List.map_cons, List.cons_append, zoneRecordsRun, hp, if_true, hrec]
      simp [hrec]

/-- **C9 witness.** Three pages (sizes 2, 2, 1), the first two truncated,
with a predicate keeping only `A` records: the enumeration issues three
requests whose cursors follow the declared next records, delivers exactly
the filtered records in order, and completes exactly once. -/
theorem zoneRecords_pagination_witness :
    zoneRecordsRun ⟨"Z1", "example.com.".toList⟩ (some (fun r => r.Typ == "A".toList))
      [.ok ⟨[⟨"r0.".toList, "A".toList⟩, ⟨"r1.".toList, "TXT".toList⟩], true,
          some "r2.".toList, some "A".toList⟩,
       .ok ⟨[⟨"r2.".toList, "A".toList⟩, ⟨"r3.".toList, "TXT".toList⟩], true,
          some "r4.".toList, some "A".toList⟩,
       .ok ⟨[⟨"r4.".toList, "A".toList⟩], false, none, none⟩] ⟨none, none⟩ =
      ([.listRecordsPage "Z1" ⟨none, none⟩,
        .listRecordsPage "Z1" ⟨some "r2.".toList, some "A".toList⟩,
        .listRecordsPage "Z1" ⟨some "r4.".toList, some "A".toList⟩],
       [⟨"r0.".toList, "A".toList⟩, ⟨"r2.".toList, "A".toList⟩, ⟨"r4.".toList, "A".toList⟩],
       1, .done) :=
  ((zoneRecords_pagination ⟨"Z1", "example.com.".toList⟩
      (some (fun r => r.Typ == "A".toList))).1
    [⟨[⟨"r0.".toList, "A".toList⟩, ⟨"r1.".toList, "TXT".toList⟩], true,
        some "r2.".toList, some "A".toList⟩,
     ⟨[⟨"r2.".toList, "A".toList⟩, ⟨"r3.".toList, "TXT".toList⟩], true,
        some "r4.".toList, some "A".toList⟩]
    ⟨[⟨"r4.".toList, "A".toList⟩], false, none, none⟩ ⟨none, none⟩
    (by decide) rfl).trans (by decide)

end Route53
